import Mathlib

/-!
Shallow embedding of `src/commands_parser.c` (the i3 command parser): the
capture stack (`push_string`, `get_string`, `clear_stack`), the state-machine
driver (`next_state`, `parse_command`) and the lexical scanner (literal,
string/word capture, end marker).  C strings are modelled as `List Char`
(NUL-free); reading the terminating 0-byte is modelled by `charAt` returning
`NUL` at the end; reading *past* the 0-byte (undefined behaviour in C) is
modelled by the distinguished results `ubPastEnd`.  The generated dispatch
function `GENERATED_call` is an external boundary and is passed in as a
parameter `gc`; every dispatch is also recorded in a trace so that dispatch
sequences of different parses can be compared.
-/

set_option maxRecDepth 4000

namespace CommandsParser

abbrev Chars := List Char

/-- The terminating 0-byte of a C string. -/
def NUL : Char := Char.ofNat 0

/-- Reading `s[i]` from a NUL-terminated C string: the terminator (and, for
convenience of the model, anything beyond) reads as `NUL`; the scanner never
reads past the terminator except in the unterminated-quote loop, which is
modelled separately by `find_closing_quote`. -/
def charAt (s : Chars) (i : Nat) : Char := s.getD i NUL

/-- `tolower` in the C locale: only ASCII A-Z are mapped. -/
def c_tolower (c : Char) : Char :=
  if 'A' ≤ c ∧ c ≤ 'Z' then Char.ofNat (c.toNat + 32) else c

/-- One slot of the capture stack (`struct stack_entry`): both fields are
nullable pointers in C. -/
structure stack_entry where
  identifier : Option Chars
  str : Option Chars
deriving DecidableEq, Repr

/-- A slot whose fields are both NULL. -/
def freeEntry : stack_entry := ⟨none, none⟩

/-- The stack after `clear_stack`, and the initial value of the global:
10 all-NULL slots. -/
def emptyStack : List stack_entry := List.replicate 10 freeEntry

/-- `push_string`: store the pair in the first slot whose identifier is NULL;
`none` models the `exit(1)` ("argh! stack full") when no slot is free. -/
def push_string : List stack_entry → Chars → Chars → Option (List stack_entry)
  | [], _, _ => none
  | e :: rest, id, v =>
    match e.identifier with
    | none => some (⟨some id, some v⟩ :: rest)
    | some _ => (push_string rest id v).map (e :: ·)

/-- `get_string`: scan the slots in order, stop at the first NULL identifier,
return the `str` of the first slot whose identifier compares equal. -/
def get_string : List stack_entry → Chars → Option Chars
  | [], _ => none
  | e :: rest, id =>
    match e.identifier with
    | none => none
    | some eid => if eid = id then e.str else get_string rest id

/-- `clear_stack`: free every slot. -/
def clear_stack (st : List stack_entry) : List stack_entry :=
  st.map (fun _ => freeEntry)

/-- The `next_state` field of a token: either the distinguished `__CALL`
value together with `extra.call_identifier`, or an ordinary state number. -/
inductive cmdp_next where
  | CALL (call_identifier : Nat)
  | state (s : Nat)
deriving DecidableEq, Repr

/-- The designated initial state (`INITIAL` of the generated enum). -/
def INITIAL : Nat := 0

/-- `cmdp_token`: the token name (literals are stored with a leading single
quote, captures as "string"/"word", the end marker as "end"), the optional
capture identifier, and the transition target. -/
structure cmdp_token where
  name : Chars
  identifier : Option Chars
  next_state : cmdp_next
deriving DecidableEq, Repr

/-- The mutable parser state of the C file (`state`, `walk`, the global
`stack`, `json_output`) plus a trace of the dispatches performed. -/
structure DState where
  state : Nat
  walk : Nat
  stack : List stack_entry
  json_output : Option Chars
  disp : List (Nat × List stack_entry)
deriving DecidableEq, Repr

/-- The external `GENERATED_call` dispatcher: call identifier and the capture
stack it may read, producing `json_output`. -/
abbrev GenCall := Nat → List stack_entry → Option Chars

/-- `next_state`: on `__CALL`, set `json_output` to the dispatcher's result
(recording the dispatch), clear the stack, and return leaving `state`
untouched; otherwise assign the new state and clear the stack when it is
`INITIAL`. -/
def next_state (gc : GenCall) (t : cmdp_token) (d : DState) : DState :=
  match t.next_state with
  | cmdp_next.CALL cid =>
      { d with
        json_output := gc cid d.stack
        disp := d.disp ++ [(cid, d.stack)]
        stack := clear_stack d.stack }
  | cmdp_next.state s =>
      { d with
        state := s
        stack := if s = INITIAL then clear_stack d.stack else d.stack }

/-- Fuel-indexed body of the whitespace-skipping loop; the fuel is
`s.length - i`, so it runs out exactly at the terminator. -/
def skip_whitespace_aux (s : Chars) : Nat → Nat → Nat
  | 0, i => i
  | fuel + 1, i =>
    if i < s.length ∧ (charAt s i = ' ' ∨ charAt s i = '\t') then
      skip_whitespace_aux s fuel (i + 1)
    else i

/-- The whitespace-skipping loop at the top of each driver iteration. -/
def skip_whitespace (s : Chars) (i : Nat) : Nat :=
  skip_whitespace_aux s (s.length - i) i

/-- Fuel-indexed body of the unquoted-capture loop. -/
def scan_until_aux (s : Chars) (delims : List Char) : Nat → Nat → Nat
  | 0, i => i
  | fuel + 1, i =>
    if i < s.length ∧ charAt s i ∉ delims then
      scan_until_aux s delims fuel (i + 1)
    else i

/-- The unquoted-capture loop: advance while the character is neither a
delimiter nor the terminating 0-byte. -/
def scan_until (s : Chars) (delims : List Char) (i : Nat) : Nat :=
  scan_until_aux s delims (s.length - i) i

/-- Fuel-indexed body of the closing-quote loop. -/
def find_closing_quote_aux (s : Chars) : Nat → Nat → Option Nat
  | 0, _ => none
  | fuel + 1, i =>
    if i < s.length then
      if charAt s i = '"' ∧ charAt s (i - 1) ≠ '\\' then some i
      else find_closing_quote_aux s fuel (i + 1)
    else none

/-- The closing-quote loop `while (*walk != '"' || *(walk-1) == '\\') walk++`:
the position of the first unescaped double quote at or after `i`.  The loop
has no end-of-input check; at the terminator it reads `NUL`, keeps going and
leaves the buffer, which the model reports as `none`. -/
def find_closing_quote (s : Chars) (i : Nat) : Option Nat :=
  find_closing_quote_aux s (s.length - i) i

/-- `strncasecmp(s + i, lit, |lit|) == 0` for a NUL-free `lit`. -/
def strncasecmp_eq (s : Chars) : Nat → Chars → Bool
  | _, [] => true
  | i, c :: rest =>
    if c_tolower (charAt s i) = c_tolower c then strncasecmp_eq s (i + 1) rest
    else false

/-- The delimiter set of an unquoted capture: `token->name[0] == 's'` selects
the string delimiters, otherwise the word delimiters. -/
def tokenDelims (t : cmdp_token) : List Char :=
  if t.name.head? = some 's' then [';', ','] else [' ', '\t', ']', ',', ';']

/-- Result of trying one candidate token at the cursor.  `noMatch` carries the
cursor value left behind by the attempt (the C code mutates `walk` even on a
failed quoted-capture attempt). -/
inductive TokenResult where
  | handled (d : DState)
  | noMatch (walk : Nat)
  | fatal
  | ubPastEnd
deriving DecidableEq, Repr

/-- The shared tail of the string/word branch: `beginning` and the cursor `w`
after the capture scan; on a non-empty capture, copy the slice, push it when
the token has an identifier, skip a closing double quote, and transition. -/
def finish_capture (gc : GenCall) (s : Chars) (t : cmdp_token) (d : DState)
    (beginning w : Nat) : TokenResult :=
  if w ≠ beginning then
    let str := (s.drop beginning).take (w - beginning)
    match (match t.identifier with
           | some id => push_string d.stack id str
           | none => some d.stack) with
    | none => TokenResult.fatal
    | some st =>
      let w2 := if charAt s w = '"' then w + 1 else w
      TokenResult.handled (next_state gc t { d with stack := st, walk := w2 })
  else TokenResult.noMatch w

/-- Trying a single candidate token at `d.walk`, exactly following the body of
the scanner's candidate loop. -/
def tryToken (gc : GenCall) (s : Chars) (t : cmdp_token) (d : DState) : TokenResult :=
  match t.name with
  | '\'' :: lit =>
    if strncasecmp_eq s d.walk lit then
      match (match t.identifier with
             | some id => push_string d.stack id lit
             | none => some d.stack) with
      | none => TokenResult.fatal
      | some st =>
        TokenResult.handled
          (next_state gc t { d with stack := st, walk := d.walk + lit.length })
    else TokenResult.noMatch d.walk
  | _ =>
    if t.name = "string".toList ∨ t.name = "word".toList then
      if charAt s d.walk = '"' then
        match find_closing_quote s (d.walk + 1) with
        | none => TokenResult.ubPastEnd
        | some w => finish_capture gc s t d (d.walk + 1) w
      else
        finish_capture gc s t d d.walk (scan_until s (tokenDelims t) d.walk)
    else if t.name = "end".toList then
      if charAt s d.walk = NUL ∨ charAt s d.walk = ',' ∨ charAt s d.walk = ';' then
        TokenResult.handled
          (let d2 := next_state gc t d
           { d2 with walk := d.walk + 1 })
      else TokenResult.noMatch d.walk
    else TokenResult.noMatch d.walk

/-- The candidate loop: first match wins; a failed attempt leaves its
(possibly advanced) cursor to the next candidate. -/
def tryTokens (gc : GenCall) (s : Chars) : List cmdp_token → DState → TokenResult
  | [], d => TokenResult.noMatch d.walk
  | t :: rest, d =>
    match tryToken gc s t d with
    | TokenResult.noMatch w => tryTokens gc s rest { d with walk := w }
    | r => r

/-- Rendering of one candidate token in the diagnostic: `'lit'` for literals,
`<name>` otherwise. -/
def render_token (t : cmdp_token) : Chars :=
  match t.name with
  | '\'' :: lit => '\'' :: (lit ++ ['\''])
  | _ => '<' :: (t.name ++ ['>'])

/-- How `parse_command` ended. -/
inductive ParseOutcome where
  | done
  | failed (offset : Nat) (candidates : List Chars)
  | stackFull
  | ubPastEnd
  | outOfFuel
deriving DecidableEq, Repr

/-- Everything observable about one `parse_command` call: the returned
`json_output`, the dispatch trace, and how the loop ended (`failed` records
the diagnostic that is printed: the failure offset and the rendered
candidates). -/
structure ParseResult where
  ret : Option Chars
  disp : List (Nat × List stack_entry)
  outcome : ParseOutcome
deriving DecidableEq, Repr

/-- The driver loop of `parse_command`, fuel-indexed (the C loop need not
terminate on adversarial grammars). -/
def parse_loop (gc : GenCall) (tokens : Nat → List cmdp_token) (s : Chars) :
    Nat → DState → ParseResult
  | 0, d => ⟨d.json_output, d.disp, ParseOutcome.outOfFuel⟩
  | fuel + 1, d =>
    if d.walk > s.length then ⟨d.json_output, d.disp, ParseOutcome.done⟩
    else
      let w := skip_whitespace s d.walk
      match tryTokens gc s (tokens d.state) { d with walk := w } with
      | TokenResult.handled d2 => parse_loop gc tokens s fuel d2
      | TokenResult.noMatch wf =>
          ⟨d.json_output, d.disp,
           ParseOutcome.failed wf ((tokens d.state).map render_token)⟩
      | TokenResult.fatal => ⟨d.json_output, d.disp, ParseOutcome.stackFull⟩
      | TokenResult.ubPastEnd => ⟨d.json_output, d.disp, ParseOutcome.ubPastEnd⟩

/-- `parse_command input`: state is reset to `INITIAL` and `json_output` to
NULL, but the global capture stack is *not* cleared, so its value at entry is
a parameter `stack0`. -/
def parse_command (gc : GenCall) (tokens : Nat → List cmdp_token)
    (stack0 : List stack_entry) (input : Chars) (fuel : Nat) : ParseResult :=
  parse_loop gc tokens input fuel ⟨INITIAL, 0, stack0, none, []⟩

/-! Concrete grammars and a concrete dispatcher used to instantiate the
claims. -/

/-- A dispatcher that returns the payload "ok" for every call. -/
def gc0 : GenCall := fun _ _ => some "ok".toList

/-- A fresh driver state at cursor 0. -/
def d0 : DState := ⟨INITIAL, 0, emptyStack, none, []⟩

/-- Literal token `'a'` leading to state 1. -/
def litA : cmdp_token := ⟨'\'' :: "a".toList, none, cmdp_next.state 1⟩

/-- End-marker token returning to a given state. -/
def endTok (target : Nat) : cmdp_token := ⟨"end".toList, none, cmdp_next.state target⟩

/-- Word capture `w` that dispatches action 0. -/
def wordCall : cmdp_token := ⟨"word".toList, some "w".toList, cmdp_next.CALL 0⟩

/-- Grammar whose dispatch state cannot consume a command boundary:
state 0 = `['a', end]`, state 1 = `[word -> call 0]`. -/
def G_bad : Nat → List cmdp_token
  | 0 => [litA, endTok 0]
  | 1 => [wordCall]
  | _ => []

/-- Grammar whose dispatch state also accepts the end marker back to state 0:
state 0 = `['a', end]`, state 1 = `[word -> call 0, end]`. -/
def G_ok : Nat → List cmdp_token
  | 0 => [litA, endTok 0]
  | 1 => [wordCall, endTok 0]
  | _ => []

/-- Grammar with a single string-capture token dispatching action 0. -/
def G_str : Nat → List cmdp_token
  | _ => [⟨"string".toList, some "s".toList, cmdp_next.CALL 0⟩]

/-- The capture stack visible in a `handled` scanner result. -/
def captured (r : TokenResult) (id : Chars) : Option Chars :=
  match r with
  | TokenResult.handled d => get_string d.stack id
  | _ => none

/-- String-capture token `s` leading to state 1 (no dispatch, so the pushed
capture stays visible). -/
def strTok1 : cmdp_token := ⟨"string".toList, some "s".toList, cmdp_next.state 1⟩

/-- Literal token `'move'` with capture identifier `cmd`, leading to state 1. -/
def litMove : cmdp_token := ⟨'\'' :: "move".toList, some "cmd".toList, cmdp_next.state 1⟩

/-- A driver state sitting in the non-initial state 5. -/
def d5 : DState := ⟨5, 0, emptyStack, none, []⟩

/-- A live stack slot holding one identifier/value pair. -/
def mkLive (p : Chars × Chars) : stack_entry := ⟨some p.1, some p.2⟩

/-- A stack whose live entries are `L` (oldest first) followed by `m` free
slots: the shape `push_string` produces from the empty stack. -/
def mkStack (L : List (Chars × Chars)) (m : Nat) : List stack_entry :=
  L.map mkLive ++ List.replicate m freeEntry

/-- Perform a sequence of pushes; `none` as soon as one of them hits the
full-stack fatal exit. -/
def pushAll : List stack_entry → List (Chars × Chars) → Option (List stack_entry)
  | st, [] => some st
  | st, p :: ps =>
    match push_string st p.1 p.2 with
    | none => none
    | some st2 => pushAll st2 ps

/-! Helper lemmas about the capture stack. -/

theorem push_string_all_occupied (st : List stack_entry) (id v : Chars)
    (h : ∀ e ∈ st, e.identifier ≠ none) : push_string st id v = none := by
  induction st with
  | nil => rfl
  | cons e rest ih =>
    have he := h e (List.mem_cons_self e rest)
    cases hei : e.identifier with
    | none => exact absurd hei he
    | some a =>
      simp only [push_string, hei]
      rw [ih (fun x hx => h x (List.mem_cons_of_mem e hx))]
      rfl

theorem push_string_free_slot (st : List stack_entry) (id v : Chars)
    (h : ∃ e ∈ st, e.identifier = none) :
    ∃ i, i < st.length ∧ (∃ e, st.get? i = some e ∧ e.identifier = none) ∧
      push_string st id v = some (st.set i ⟨some id, some v⟩) := by
  induction st with
  | nil => simp at h
  | cons e rest ih =>
    cases hei : e.identifier with
    | none =>
      exact ⟨0, by simp, ⟨e, rfl, hei⟩, by simp [push_string, hei]⟩
    | some a =>
      have h2 : ∃ x ∈ rest, x.identifier = none := by
        rcases h with ⟨x, hx, hxi⟩
        rcases List.mem_cons.mp hx with heq | hm
        · subst heq; rw [hei] at hxi; exact absurd hxi (by simp)
        · exact ⟨x, hm, hxi⟩
      rcases ih h2 with ⟨i, hi, hfree, hpush⟩
      refine ⟨i + 1, by simpa using hi, by simpa using hfree, ?_⟩
      simp only [push_string, hei, hpush, Option.map_some]
      rfl

theorem get_string_clear (st : List stack_entry) (id : Chars) :
    get_string (clear_stack st) id = none := by
  cases st <;> rfl

theorem identifier_clear (st : List stack_entry) :
    ∀ e ∈ clear_stack st, e.identifier = none := by
  intro e he
  rcases List.mem_map.mp he with ⟨a, _, rfl⟩
  rfl

theorem push_string_mkStack (L : List (Chars × Chars)) (m : Nat) (id v : Chars) :
    push_string (mkStack L (m + 1)) id v = some (mkStack (L ++ [(id, v)]) m) := by
  induction L with
  | nil => simp [mkStack, List.replicate_succ, push_string, freeEntry, mkLive]
  | cons q L ih =>
    show push_string (mkLive q :: mkStack L (m + 1)) id v =
      some (mkLive q :: mkStack (L ++ [(id, v)]) m)
    simp only [push_string, mkLive, ih]
    rfl

theorem pushAll_mkStack (ps : List (Chars × Chars)) :
    ∀ (L : List (Chars × Chars)) (m : Nat), ps.length ≤ m →
      pushAll (mkStack L m) ps = some (mkStack (L ++ ps) (m - ps.length)) := by
  induction ps with
  | nil => intro L m _; simp [pushAll]
  | cons p ps ih =>
    intro L m hlen
    obtain ⟨m2, rfl⟩ : ∃ m2, m = m2 + 1 := by
      cases m with
      | zero => simp at hlen
      | succ m2 => exact ⟨m2, rfl⟩
    simp only [pushAll, push_string_mkStack]
    rw [ih (L ++ [p]) m2 (by simpa using hlen)]
    simp [List.append_assoc, Nat.succ_sub_succ]

theorem get_string_mkStack (L : List (Chars × Chars)) (m : Nat) (id : Chars) :
    get_string (mkStack L m) id =
      (L.find? (fun p => decide (p.1 = id))).map Prod.snd := by
  induction L with
  | nil =>
    cases m with
    | zero => rfl
    | succ m2 => rfl
  | cons p L ih =>
    show get_string (mkLive p :: mkStack L m) id =
      (((p :: L).find? (fun q => decide (q.1 = id))).map Prod.snd)
    by_cases hp : p.1 = id
    · simp [get_string, mkLive, hp, List.find?]
    · simp [get_string, mkLive, hp, List.find?, ih]

/-! Claims about the capture stack: C6, C7, C8. -/

/-- C6 (amended): for every sequence of at most 10 pushes into the empty
stack, `get_string` returns the value of the *least*-recently-pushed (first
stored) entry whose identifier equals the argument, and `none` when no entry
has that identifier. -/
theorem lookup_returns_first_pushed (ps : List (Chars × Chars))
    (st : List stack_entry) (id : Chars)
    (hlen : ps.length ≤ 10) (hpush : pushAll emptyStack ps = some st) :
    get_string st id = (ps.find? (fun p => decide (p.1 = id))).map Prod.snd := by
  have h1 : pushAll emptyStack ps = some (mkStack ps (10 - ps.length)) := by
    have h2 := pushAll_mkStack ps [] 10 hlen
    simpa [mkStack] using h2
  rw [h1] at hpush
  cases hpush
  exact get_string_mkStack ps (10 - ps.length) id

/-- Witness for C6: two pushes with distinct identifiers; lookup of the first
identifier returns its value. -/
theorem lookup_returns_first_pushed_witness :
    get_string (mkStack [("x".toList, "a".toList), ("y".toList, "b".toList)] 8)
        "x".toList =
      (([("x".toList, "a".toList), ("y".toList, "b".toList)].find?
          (fun p => decide (p.1 = "x".toList))).map Prod.snd) :=
  lookup_returns_first_pushed
    [("x".toList, "a".toList), ("y".toList, "b".toList)]
    (mkStack [("x".toList, "a".toList), ("y".toList, "b".toList)] 8)
    "x".toList (by decide) (by decide)

/-- C6 counterexample: pushing identifier `x` with value `a`, then again with
value `b`, makes lookup return the value `a` of the *first* push, not the
most-recently-pushed `b` the claim demands. -/
theorem lookup_most_recent_cx :
    ((push_string emptyStack "x".toList "a".toList).bind
        (fun st => push_string st "x".toList "b".toList)).map
      (fun st => get_string st "x".toList) = some (some "a".toList) ∧
    "a".toList ≠ "b".toList := by decide

/-- C7: after `next_state` performs a dispatch, or any transition into the
`INITIAL` state (command boundaries included), the capture stack holds no
live entry and `get_string` returns `none` for every identifier. -/
theorem stack_empty_after_dispatch_or_initial (gc : GenCall) (t : cmdp_token)
    (d : DState)
    (h : (∃ cid, t.next_state = cmdp_next.CALL cid) ∨
      t.next_state = cmdp_next.state INITIAL) :
    (∀ e ∈ (next_state gc t d).stack, e.identifier = none) ∧
      (∀ id, get_string (next_state gc t d).stack id = none) := by
  have hst : (next_state gc t d).stack = clear_stack d.stack := by
    rcases h with ⟨cid, hc⟩ | hs
    · simp [next_state, hc]
    · simp [next_state, hs, INITIAL]
  rw [hst]
  exact ⟨identifier_clear d.stack, fun id => get_string_clear d.stack id⟩

/-- Witness for C7: the end-of-command token returning to `INITIAL`, applied
in state 5. -/
theorem stack_empty_after_dispatch_or_initial_witness :
    (∀ e ∈ (next_state gc0 (endTok 0) d5).stack, e.identifier = none) ∧
      (∀ id, get_string (next_state gc0 (endTok 0) d5).stack id = none) :=
  stack_empty_after_dispatch_or_initial gc0 (endTok 0) d5 (Or.inr rfl)

/-- C8: on a 10-slot stack, `push_string` is fatal (the `exit(1)` path,
modelled as `none`) exactly when every slot is occupied; when some slot is
free, the pair is stored into a free slot `i` and every other slot is kept
unchanged (`List.set` of a free slot) — never dropped, never overwriting a
live entry. -/
theorem push_full_fatal_free_stores (st : List stack_entry) (id v : Chars)
    (_hlen : st.length = 10) :
    ((∀ e ∈ st, e.identifier ≠ none) → push_string st id v = none) ∧
    ((∃ e ∈ st, e.identifier = none) →
      ∃ i, i < st.length ∧ (∃ e, st.get? i = some e ∧ e.identifier = none) ∧
        push_string st id v = some (st.set i ⟨some id, some v⟩)) :=
  ⟨push_string_all_occupied st id v, push_string_free_slot st id v⟩

/-- Witness for C8: the empty 10-slot stack has a free slot, and the pair is
stored into slot 0. -/
theorem push_full_fatal_free_stores_witness :
    ((∀ e ∈ emptyStack, e.identifier ≠ none) →
      push_string emptyStack "x".toList "v".toList = none) ∧
    ((∃ e ∈ emptyStack, e.identifier = none) →
      ∃ i, i < emptyStack.length ∧
        (∃ e, emptyStack.get? i = some e ∧ e.identifier = none) ∧
        push_string emptyStack "x".toList "v".toList =
          some (emptyStack.set i ⟨some "x".toList, some "v".toList⟩)) :=
  push_full_fatal_free_stores emptyStack "x".toList "v".toList (by decide)

/-! Helper lemmas about the scanner loops. -/

theorem scan_until_stop (s : Chars) (delims : List Char) (i : Nat)
    (h : ¬(i < s.length ∧ charAt s i ∉ delims)) : scan_until s delims i = i := by
  unfold scan_until
  cases hf : s.length - i with
  | zero => rfl
  | succ n => simp [scan_until_aux, h]

theorem find_closing_quote_stop (s : Chars) (i : Nat) (hlt : i < s.length)
    (hq : charAt s i = '"') (hbs : charAt s (i - 1) ≠ '\\') :
    find_closing_quote s i = some i := by
  unfold find_closing_quote
  obtain ⟨n, hn⟩ : ∃ n, s.length - i = n + 1 := ⟨s.length - i - 1, by omega⟩
  rw [hn]
  simp [find_closing_quote_aux, hlt, hq, hbs]

theorem tryToken_capture_eq (gc : GenCall) (s : Chars) (t : cmdp_token)
    (d : DState) (hname : t.name = "string".toList ∨ t.name = "word".toList) :
    tryToken gc s t d =
      if charAt s d.walk = '"' then
        match find_closing_quote s (d.walk + 1) with
        | none => TokenResult.ubPastEnd
        | some w => finish_capture gc s t d (d.walk + 1) w
      else finish_capture gc s t d d.walk (scan_until s (tokenDelims t) d.walk) := by
  obtain ⟨name, ident, nxt⟩ := t
  rcases hname with h | h <;> subst h <;> rfl

/-! Claims about the scanner and the driver. -/

/-- C9 (amended): a zero-length capture is no match for a string/word token:
nothing is pushed and the scanner falls through to the next candidate.  For an
unquoted capture (delimiter or end of input at the cursor) the next candidate
is tried at the very same cursor position; but for a quoted capture whose
closing quote immediately follows the opening one, the cursor handed to the
next candidate has advanced past the opening quote. -/
theorem zero_length_capture_no_match (gc : GenCall) (s : Chars)
    (t : cmdp_token) (d : DState)
    (hname : t.name = "string".toList ∨ t.name = "word".toList) :
    ((charAt s d.walk ≠ '"') →
      (d.walk < s.length → charAt s d.walk ∈ tokenDelims t) →
      tryToken gc s t d = TokenResult.noMatch d.walk) ∧
    ((charAt s d.walk = '"') → d.walk + 1 < s.length →
      charAt s (d.walk + 1) = '"' →
      tryToken gc s t d = TokenResult.noMatch (d.walk + 1)) := by
  constructor
  · intro hq hdel
    have hscan : scan_until s (tokenDelims t) d.walk = d.walk := by
      apply scan_until_stop
      intro hcon
      exact hcon.2 (hdel hcon.1)
    rw [tryToken_capture_eq gc s t d hname, if_neg hq, hscan]
    simp [finish_capture]
  · intro hq hlt hq2
    have hfind : find_closing_quote s (d.walk + 1) = some (d.walk + 1) := by
      apply find_closing_quote_stop s (d.walk + 1) hlt hq2
      rw [Nat.add_sub_cancel, hq]
      decide
    rw [tryToken_capture_eq gc s t d hname, if_pos hq, hfind]
    simp [finish_capture]

/-- Witness for C9: word token at the input `""`; the attempt is a no-match
that leaves the cursor one past the opening quote. -/
theorem zero_length_capture_no_match_witness :
    ((charAt "\"\"".toList d0.walk ≠ '"') →
      (d0.walk < "\"\"".toList.length →
        charAt "\"\"".toList d0.walk ∈ tokenDelims wordCall) →
      tryToken gc0 "\"\"".toList wordCall d0 = TokenResult.noMatch d0.walk) ∧
    ((charAt "\"\"".toList d0.walk = '"') →
      d0.walk + 1 < "\"\"".toList.length →
      charAt "\"\"".toList (d0.walk + 1) = '"' →
      tryToken gc0 "\"\"".toList wordCall d0 =
        TokenResult.noMatch (d0.walk + 1)) :=
  zero_length_capture_no_match gc0 "\"\"".toList wordCall d0 (Or.inr rfl)

/-- C9 counterexample: on the input `""` the failed word-capture attempt does
*not* leave the cursor where it was — the next candidate is tried one past the
opening quote, not at the same position. -/
theorem zero_length_capture_same_cursor_cx :
    tryToken gc0 "\"\"".toList wordCall d0 = TokenResult.noMatch 1 ∧
      tryToken gc0 "\"\"".toList wordCall d0 ≠ TokenResult.noMatch 0 := by decide

/-- C10: a literal token carrying a capture identifier pushes the literal's
own text — the token name without its leading quote marker — under that
identifier, before the transition is applied. -/
theorem literal_pushes_own_text (gc : GenCall) (s : Chars) (t : cmdp_token)
    (d : DState) (lit id : Chars) (st2 : List stack_entry)
    (hname : t.name = '\'' :: lit) (hid : t.identifier = some id)
    (hmatch : strncasecmp_eq s d.walk lit = true)
    (hpush : push_string d.stack id lit = some st2) :
    tryToken gc s t d =
      TokenResult.handled
        (next_state gc t { d with stack := st2, walk := d.walk + lit.length }) := by
  obtain ⟨name, ident, nxt⟩ := t
  simp only at hname hid
  subst hname
  subst hid
  simp [tryToken, hmatch, hpush]

/-- Witness for C10: the literal `'move'` with identifier `cmd` matching at
the start of `move left` pushes the pair `(cmd, move)`. -/
theorem literal_pushes_own_text_witness :
    tryToken gc0 "move left".toList litMove d0 =
      TokenResult.handled
        (next_state gc0 litMove
          { d0 with
            stack := mkLive ("cmd".toList, "move".toList) :: List.replicate 9 freeEntry,
            walk := d0.walk + "move".toList.length }) :=
  literal_pushes_own_text gc0 "move left".toList litMove d0 "move".toList
    "cmd".toList (mkLive ("cmd".toList, "move".toList) :: List.replicate 9 freeEntry)
    rfl rfl (by decide) (by decide)

/-- C3 counterexample: a dispatch token handled in state 5 leaves the driver
in state 5 — `next_state` returns right after the call without assigning
`state`, so the state is *not* set to `INITIAL` as the claim demands. -/
theorem dispatch_resets_state_cx :
    (next_state gc0 wordCall d5).state = 5 ∧ (5 : Nat) ≠ INITIAL := by decide

/-- C3 (amended): on a token targeting a dispatch identifier, the driver
invokes the dispatcher with that identifier and the current capture stack,
records its result as the pending outcome, clears the capture stack — and
leaves the current state unchanged, so the next token is matched against the
token list of the state in which the dispatch occurred, not `INITIAL`'s. -/
theorem dispatch_effects (gc : GenCall) (t : cmdp_token) (d : DState)
    (cid : Nat) (h : t.next_state = cmdp_next.CALL cid) :
    next_state gc t d =
      { state := d.state, walk := d.walk, stack := clear_stack d.stack,
        json_output := gc cid d.stack, disp := d.disp ++ [(cid, d.stack)] } := by
  simp [next_state, h]

/-- Witness for C3: the dispatching word token applied in state 5. -/
theorem dispatch_effects_witness :
    next_state gc0 wordCall d5 =
      { state := d5.state, walk := d5.walk, stack := clear_stack d5.stack,
        json_output := gc0 0 d5.stack, disp := d5.disp ++ [(0, d5.stack)] } :=
  dispatch_effects gc0 wordCall d5 0 rfl

/-- C1: on the unterminated quoted input `"abc` the closing-quote loop never
finds a stopping position inside the buffer (`find_closing_quote` is `none`,
i.e. the C loop walks past the terminating 0-byte), and the whole parse ends
in the undefined-behaviour outcome instead of a bounded no-match or a parse
failure at the opening quote. -/
theorem quoted_scan_runs_past_end :
    find_closing_quote "\"abc".toList 1 = none ∧
      parse_command gc0 G_str emptyStack "\"abc".toList 50 =
        ⟨none, [], ParseOutcome.ubPastEnd⟩ := by decide

/-- C2 counterexample: scanning the quoted input `"a\"b"` does not produce
the capture text `a"b` — the backslash is kept. -/
theorem quoted_capture_unescape_cx :
    captured (tryToken gc0 "\"a\\\"b\"".toList strTok1 d0) "s".toList ≠
      some "a\"b".toList := by decide

/-- C2 (amended): a backslash-double-quote pair does not terminate a quoted
capture (the closing quote of `"a\"b"` is the one at offset 5), but the pair
is copied verbatim into the captured value: the capture is `a\"b`, backslash
included, not `a"b`. -/
theorem quoted_capture_verbatim :
    find_closing_quote "\"a\\\"b\"".toList 1 = some 5 ∧
      captured (tryToken gc0 "\"a\\\"b\"".toList strTok1 d0) "s".toList =
        some "a\\\"b".toList := by decide

/-- C4 counterexample: under the grammar `G_bad` (whose dispatch state has no
end-marker fallback) parsing `a x; a y` performs one dispatch and then fails,
while parsing `a x` and `a y` separately with fresh stacks performs one
dispatch each — the combined dispatch trace differs from the concatenation of
the separate ones. -/
theorem boundary_split_cx :
    (parse_command gc0 G_bad emptyStack "a x; a y".toList 50).disp ≠
      (parse_command gc0 G_bad emptyStack "a x".toList 50).disp ++
        (parse_command gc0 G_bad emptyStack "a y".toList 50).disp := by decide

/-- C4 (amended): because dispatch leaves the current state unchanged, the
boundary-splitting equivalence holds only when the grammar lets the
post-dispatch state consume the boundary back to `INITIAL`; for such a
grammar (`G_ok`) parsing `a x; a y` yields exactly the same two dispatch
results, in order, as parsing `a x` and then `a y` separately with fresh
capture stacks. -/
theorem boundary_split_ok :
    (parse_command gc0 G_ok emptyStack "a x; a y".toList 50).disp =
      (parse_command gc0 G_ok emptyStack "a x".toList 50).disp ++
        (parse_command gc0 G_ok emptyStack "a y".toList 50).disp ∧
    (parse_command gc0 G_ok emptyStack "a x; a y".toList 50).disp.length = 2 ∧
    (parse_command gc0 G_ok emptyStack "a x; a y".toList 50).outcome =
      ParseOutcome.done := by decide

/-- C5: on `a x; q` under `G_ok` the parse stops at the first unparseable
position (offset 5, with the candidate list of the state, rendered as in the
diagnostic) and never resynchronizes — but the value `parse_command` returns
is the dispatch payload of the earlier completed sub-command `a x`, not the
structured failure: the diagnostic is only printed. -/
theorem error_returns_prior_payload :
    parse_command gc0 G_ok emptyStack "a x; q".toList 50 =
      ⟨some "ok".toList,
       [(0, mkLive ("w".toList, "x".toList) :: List.replicate 9 freeEntry)],
       ParseOutcome.failed 5
         [['\'', 'a', '\''], '<' :: ("end".toList ++ ['>'])]⟩ := by decide

end CommandsParser
